import Mathlib

/-!
A verification development for the md2cf code base (Markdown → Confluence
publishing tool).  The Python sources are shallowly embedded: pure functions
become Lean functions, the mutable renderer/upsert state is threaded
explicitly, machine integers are `Nat` with explicit `% 2 ^ 32` where the
SHA-1 rounds overflow, and fallible code returns `Except`/`Option`.
External collaborators (the YAML loader, the mistune markdown tokenizer, the
wiki server, the filesystem) are passed in as parameters and their relevant
behaviour is documented at each use site.
-/

namespace Md2cf

/-- Membership in the character class `[a-f0-9]` of `CONTENT_HASH_REGEX`
(upsert.py), which is also the alphabet of Python's
`hashlib.sha1(...).hexdigest()` output: a decimal digit or a lowercase letter
between `a` and `f`. -/
def isLowerHexDigit (c : Char) : Bool :=
  (48 ≤ c.toNat && c.toNat ≤ 57) || (97 ≤ c.toNat && c.toNat ≤ 102)

/-- `2 ^ 32`, the modulus for the 32-bit words of SHA-1. -/
def w32 : Nat := 4294967296

/-- 32-bit left rotation of a word `n < 2 ^ 32` by `k` bits. -/
def rotl32 (k n : Nat) : Nat :=
  ((n <<< k) % w32) ||| (n >>> (32 - k))

/-- UTF-8 encoding of a single Unicode code point, as performed by Python's
`str.encode()` (used by `Page.get_content_hash` in `document.py`). -/
def utf8Bytes (c : Nat) : List Nat :=
  if c < 128 then [c]
  else if c < 2048 then [192 ||| (c >>> 6), 128 ||| (c &&& 63)]
  else if c < 65536 then
    [224 ||| (c >>> 12), 128 ||| ((c >>> 6) &&& 63), 128 ||| (c &&& 63)]
  else
    [240 ||| (c >>> 18), 128 ||| ((c >>> 12) &&& 63), 128 ||| ((c >>> 6) &&& 63),
      128 ||| (c &&& 63)]

/-- The UTF-8 byte sequence of a string (Python `str.encode()`). -/
def strUtf8 (s : String) : List Nat :=
  s.data.foldr (fun c acc => utf8Bytes c.toNat ++ acc) []

/-- SHA-1 message padding: append `0x80`, zero bytes up to 56 mod 64, then the
original bit length as an 8-byte big-endian integer (mod `2 ^ 64`). -/
def sha1Pad (msg : List Nat) : List Nat :=
  let len := msg.length
  let zeros := (119 - len % 64) % 64
  let bitLen := (len * 8) % (2 ^ 64)
  msg ++ [128] ++ List.replicate zeros 0 ++
    [bitLen >>> 56 % 256, bitLen >>> 48 % 256, bitLen >>> 40 % 256, bitLen >>> 32 % 256,
      bitLen >>> 24 % 256, bitLen >>> 16 % 256, bitLen >>> 8 % 256, bitLen % 256]

/-- Split a byte list into 64-byte chunks. -/
def chunks64 (l : List Nat) : List (List Nat) :=
  if h : l = [] then []
  else (l.take 64) :: chunks64 (l.drop 64)
termination_by l.length
decreasing_by
  simp only [List.length_drop]
  have : 0 < l.length := List.length_pos.mpr h
  omega

/-- Big-endian 32-bit words of a chunk (4 bytes each). -/
def toWords : List Nat → List Nat
  | a :: b :: c :: d :: rest => (((a * 256 + b) * 256 + c) * 256 + d) :: toWords rest
  | _ => []

/-- SHA-1 message-schedule extension.  The accumulator holds the words already
produced, most recent first; each step adds
`rotl1 (w[i-3] xor w[i-8] xor w[i-14] xor w[i-16])`. -/
def sha1Extend (acc : List Nat) : Nat → List Nat
  | 0 => acc
  | n + 1 =>
    let t := rotl32 1 ((acc.getD 2 0) ^^^ (acc.getD 7 0) ^^^ (acc.getD 13 0) ^^^ (acc.getD 15 0))
    sha1Extend (t :: acc) n

/-- SHA-1 round constant for round `i`. -/
def sha1K (i : Nat) : Nat :=
  if i < 20 then 1518500249
  else if i < 40 then 1859775393
  else if i < 60 then 2400959708
  else 3395469782

/-- SHA-1 round function for round `i` (bitwise complement of `b` is
`b ^^^ (2 ^ 32 - 1)`). -/
def sha1F (i b c d : Nat) : Nat :=
  if i < 20 then (b &&& c) ||| ((b ^^^ 4294967295) &&& d)
  else if i < 40 then b ^^^ c ^^^ d
  else if i < 60 then (b &&& c) ||| (b &&& d) ||| (c &&& d)
  else b ^^^ c ^^^ d

/-- One SHA-1 compression round applied to the five-word state. -/
def sha1Round (st : Nat × Nat × Nat × Nat × Nat) (iw : Nat × Nat) :
    Nat × Nat × Nat × Nat × Nat :=
  match st, iw with
  | (a, b, c, d, e), (i, w) =>
    let temp := (rotl32 5 a + sha1F i b c d + e + sha1K i + w) % w32
    (temp, a, rotl32 30 b, c, d)

/-- Process one 64-byte chunk against the running five-word hash state. -/
def sha1Chunk (h : Nat × Nat × Nat × Nat × Nat) (chunk : List Nat) :
    Nat × Nat × Nat × Nat × Nat :=
  let ws := (sha1Extend (toWords chunk).reverse 64).reverse
  match h, ws.enum.foldl sha1Round h with
  | (h0, h1, h2, h3, h4), (a, b, c, d, e) =>
    ((h0 + a) % w32, (h1 + b) % w32, (h2 + c) % w32, (h3 + d) % w32, (h4 + e) % w32)

/-- The five 32-bit words of the SHA-1 digest of a byte sequence. -/
def sha1Words (msg : List Nat) : Nat × Nat × Nat × Nat × Nat :=
  (chunks64 (sha1Pad msg)).foldl sha1Chunk
    (1732584193, 4023233417, 2562383102, 271733878, 3285377520)

/-- The lowercase hex digit character for a value below 16 (decimal digits,
then `a`-`f`). -/
def hexChar (i : Fin 16) : Char :=
  if i.val < 10 then Char.ofNat (48 + i.val) else Char.ofNat (87 + i.val)

/-- The eight lowercase hex digits of a 32-bit word, most significant first. -/
def toHex8 (w : Nat) : List Char :=
  (List.range 8).map (fun k => hexChar ⟨w / 16 ^ (7 - k) % 16, Nat.mod_lt _ (by decide)⟩)

/-- Lowercase hexadecimal SHA-1 digest of a byte sequence
(`hashlib.sha1(...).hexdigest()`). -/
def sha1Hex (msg : List Nat) : String :=
  match sha1Words msg with
  | (a, b, c, d, e) =>
    String.mk (toHex8 a ++ toHex8 b ++ toHex8 c ++ toHex8 d ++ toHex8 e)

/-- `Page.get_content_hash` (document.py line 47-48): the SHA-1 hex digest of
the UTF-8 encoded page body, and nothing else. -/
def get_content_hash (body : String) : String :=
  sha1Hex (strUtf8 body)

/-- The literal content-hash marker text: `[v` ++ hash ++ `]`
(written by `upsert_page` and `upsert_attachment` in upsert.py). -/
def hashMarker (hash : String) : String := "[v" ++ hash ++ "]"

/-- Match the fixed 43-character pattern `\[v([a-f0-9]{40})]` ending exactly at
the end of the character list; returns the 40-character capture group. -/
def markerHashAtEnd (l : List Char) : Option (List Char) :=
  let tail := l.drop (l.length - 43)
  if 43 ≤ l.length ∧ tail.take 2 = ['[', 'v'] ∧ tail.getLast? = some ']' ∧
      ((tail.drop 2).dropLast.all isLowerHexDigit = true) then
    some ((tail.drop 2).dropLast)
  else none

/-- `CONTENT_HASH_REGEX.search` (upsert.py line 10): Python's
`re.compile(r"\[v([a-f0-9]{40})]$").search(s)`, returning group 1.  In Python,
an unanchored `$` matches at the end of the string or just before a single
newline at the end of the string, so the marker is also found when the message
ends with the marker followed by one trailing `'\n'`. -/
def content_hash_search (s : String) : Option String :=
  let l := if s.data.getLast? == some '\n' then s.data.dropLast else s.data
  (markerHashAtEnd l).map String.mk

/-- upsert.py lines 77-82 (and 166-173 for attachments): the outgoing version
message in `only_changed` mode — the human-supplied message, a space and the
marker, or the marker alone when the message is empty/absent (Python falsy). -/
def message_with_content_hash (message : String) (hash : String) : String :=
  if message ≠ "" then message ++ " [v" ++ hash ++ "]" else "[v" ++ hash ++ "]"

/-- Formalisation of the claim text (C3): the message ends with the literal
text `[v` + 40 lowercase hex characters + `]`. -/
def endsWithHashMarker (m : String) : Bool :=
  (markerHashAtEnd m.data).isSome

/-- A relative-link record (confluence_renderer.py `RelativeLink`). -/
structure RelativeLink where
  path : String
  fragment : String
  replacement : String
  original : String
  escaped_original : String
deriving DecidableEq, Repr

/-- A scalar YAML value, as produced by the external `yaml.safe_load`. -/
inductive YamlScalar where
  | nullV
  | boolV (v : Bool)
  | intV (v : Int)
  | strV (v : String)
deriving DecidableEq, Repr

/-- A YAML value appearing in a frontmatter mapping: a scalar or a list of
scalars.  (The external YAML library can return deeper nesting, but every
code path under verification only inspects the top-level shape, so this
universe is sufficient and keeps equality decidable.) -/
inductive YamlVal where
  | scalar (v : YamlScalar)
  | listV (items : List YamlScalar)
deriving DecidableEq, Repr

/-- Python truthiness of a YAML value (`if not page.title` in document.py). -/
def YamlVal.truthy : YamlVal → Bool
  | .scalar .nullV => false
  | .scalar (.boolV v) => v
  | .scalar (.intV v) => v != 0
  | .scalar (.strV v) => v != ""
  | .listV items => !items.isEmpty

/-- Python `str()` of a scalar (document.py applies `str` to each label). -/
def YamlScalar.pyStr : YamlScalar → String
  | .nullV => "None"
  | .boolV true => "True"
  | .boolV false => "False"
  | .intV v => toString v
  | .strV v => v

/-- The central `Page` record (document.py).  `title` holds a YAML value
because Python assigns the frontmatter `title` value to it unchanged;
renderer- and filename-derived titles are strings (`YamlVal.scalar (.strV _)`).
Remote identifiers are modelled as `Nat`. -/
structure Page where
  title : Option YamlVal := none
  original_title : Option YamlVal := none
  body : String := ""
  content_type : String := "page"
  attachments : List String := []
  file_path : Option String := none
  page_id : Option Nat := none
  parent_id : Option Nat := none
  parent_title : Option String := none
  space : Option String := none
  labels : Option (List String) := none
  relative_links : List RelativeLink := []
deriving DecidableEq, Repr

/-- The version sub-object of a remote Confluence page (`page.version`). -/
structure RemoteVersion where
  number : Nat := 1
  message : String := ""
deriving DecidableEq, Repr

/-- A remote Confluence page as returned by the wiki API, with the fields the
upsert engine reads: `version`, the ancestor id chain (`ancestors[..].id`) and
the label names (`metadata.labels.results[..].name`). -/
structure RemotePage where
  id : Nat := 0
  version : RemoteVersion := {}
  ancestors : List Nat := []
  labelNames : List String := []
deriving DecidableEq, Repr

/-- upsert.py `UpsertAction`. -/
inductive UpsertAction where
  | CREATED
  | UPDATED
  | SKIPPED
deriving DecidableEq, Repr

/-- A mutating wiki API call issued by the upsert engine (api.py
`create_page` / `update_page` / `add_labels`), recorded so that theorems can
speak about which network writes happen. -/
inductive ConfCall where
  | createPage (space : Option String) (title : Option YamlVal) (body : String)
      (parent_id : Option Nat) (update_message : String) (labels : Option (List String))
  | updatePage (page_id : Nat) (body : String) (parent_id : Option Nat)
      (update_message : String) (labels : Option (List String)) (minor_edit : Bool)
  | addLabels (page_id : Nat) (labels : List String)
deriving DecidableEq, Repr

/-- Whether a call is the additive `add_labels` call. -/
def ConfCall.isAddLabels : ConfCall → Bool
  | .addLabels _ _ => true
  | _ => false

/-- Whether a call is an `update_page` call. -/
def ConfCall.isUpdatePage : ConfCall → Bool
  | .updatePage _ _ _ _ _ _ => true
  | _ => false

/-- Lexicographic (code-point) comparison of character lists, as Python
compares strings. -/
def charListLe (xs ys : List Char) : Bool :=
  match xs, ys with
  | [], _ => true
  | _ :: _, [] => false
  | x :: xr, y :: yr =>
    if x.toNat < y.toNat then true
    else if y.toNat < x.toNat then false
    else charListLe xr yr

/-- Python string comparison `a <= b`. -/
def pyStrLe (a b : String) : Bool := charListLe a.data b.data

/-- Insert into a lexicographically sorted list of strings. -/
def insertSorted (x : String) : List String → List String
  | [] => [x]
  | y :: ys => if pyStrLe x y then x :: y :: ys else y :: insertSorted x ys

/-- Python `sorted` on a list of strings (lexicographic insertion sort;
Python's sort is stable, but stability is unobservable on plain strings). -/
def pySorted (l : List String) : List String :=
  l.foldr insertSorted []

/-- upsert.py `labels_need_updating` (lines 123-131): Python returns `True`
or falls through returning `None` (falsy), embedded as `Bool`. -/
def labels_need_updating (page : Page) (existing_page : RemotePage) : Bool :=
  match page.labels with
  | none => false
  | some ls => pySorted existing_page.labelNames != pySorted ls

/-- Python truthiness of `page.labels` (`None` and `[]` are falsy). -/
def labelsTruthy : Option (List String) → Bool
  | none => false
  | some l => !l.isEmpty

/-- upsert.py `page_needs_updating` (lines 133-155).  The Python expression
`existing_page.ancestors[-1].id` raises `IndexError` on an empty ancestor
list; this embedding compares against `getLast?` instead, which only differs
on that crashing input. -/
def page_needs_updating (page : Page) (existing_page : RemotePage)
    (replace_all_labels : Bool) : Bool :=
  if page.parent_id = none ∧ existing_page.ancestors.length > 1 then true
  else if page.parent_id ≠ none ∧ page.parent_id ≠ existing_page.ancestors.getLast? then
    true
  else if replace_all_labels ∧ labels_need_updating page existing_page then true
  else
    match content_hash_search existing_page.version.message with
    | some original_page_hash =>
      if original_page_hash = get_content_hash page.body then false else true
    | none => true

/-- Modelled from the spec (§6, external wiki client): the response to
`create_page` — a fresh remote page whose version message is the supplied
update message; a page created without a parent is a child of just the space
home page (one ancestor). -/
def create_page_response (parent_id : Option Nat) (update_message : String)
    (labels : Option (List String)) : RemotePage :=
  { id := 0
    version := { number := 1, message := update_message }
    ancestors := match parent_id with
      | some p => [0, p]
      | none => [0]
    labelNames := labels.getD [] }

/-- Modelled from the spec (§6, external wiki client): the response to
`update_page` — the existing page with a bumped version carrying the supplied
update message; when the `labels` argument is absent the remote labels are
left unchanged. -/
def update_page_response (existing : RemotePage) (update_message : String)
    (labels : Option (List String)) : RemotePage :=
  { existing with
    version := { number := existing.version.number + 1, message := update_message }
    labelNames := labels.getD existing.labelNames }

/-- The result of `upsert_page`: the action taken, the final remote page
object, and the trace of mutating wiki calls that were issued. -/
structure UpsertResult where
  action : UpsertAction
  response : RemotePage
  calls : List ConfCall
deriving DecidableEq, Repr

/-- The parent resolution at the top of `upsert_page` (upsert.py lines
71-75): a page with no `parent_id` but a `parent_title` gets the id found by
`get_parent_id_from_title`; `parent_lookup = none` models the `KeyError`
raised when that remote lookup finds nothing. -/
def resolve_parent_id (parent_lookup : Option Nat) (page : Page) :
    Except Unit (Option Nat) :=
  if page.parent_id = none then
    match page.parent_title with
    | some _ =>
      match parent_lookup with
      | some i => .ok (some i)
      | none => .error ()
    | none => .ok none
  else .ok page.parent_id

/-- upsert.py `upsert_page` (lines 77-120), after parent resolution.  The
wiki is abstracted by `existing`, the result of the initial `get_page`
lookup.  The human-supplied `message` is a string, with `""` playing Python's
falsy `None`. -/
def upsert_page_body (existing : Option RemotePage) (parent_id : Option Nat)
    (message : String) (page0 : Page) (only_changed : Bool)
    (replace_all_labels : Bool) (minor_edit : Bool) : UpsertResult :=
  let page := { page0 with parent_id := parent_id }
  let page_message :=
    if only_changed then message_with_content_hash message (get_content_hash page.body)
    else message
  match existing with
  | none =>
    let resp := create_page_response parent_id page_message page.labels
    { action := .CREATED
      response := resp
      calls := [ConfCall.createPage page.space page.title page.body parent_id
        page_message page.labels] }
  | some existing_page =>
    let updated : UpsertAction × RemotePage × List ConfCall :=
      if ¬ only_changed ∨ page_needs_updating page existing_page replace_all_labels then
        let upd_labels := if replace_all_labels then page.labels else none
        (.UPDATED, update_page_response existing_page page_message upd_labels,
          [ConfCall.updatePage existing_page.id page.body parent_id page_message
            upd_labels minor_edit])
      else (.SKIPPED, existing_page, [])
    match updated with
    | (action, existing_page2, main_calls) =>
      let label_calls :=
        if ¬ replace_all_labels ∧ labelsTruthy page.labels ∧
            labels_need_updating page existing_page2 then
          [ConfCall.addLabels existing_page2.id (page.labels.getD [])]
        else []
      { action := action
        response := existing_page2
        calls := main_calls ++ label_calls }

/-- upsert.py `upsert_page` (lines 49-120): resolve the parent, then create,
update or skip. -/
def upsert_page (existing : Option RemotePage) (parent_lookup : Option Nat)
    (message : String) (page : Page) (only_changed : Bool)
    (replace_all_labels : Bool) (minor_edit : Bool) : Except Unit UpsertResult :=
  (resolve_parent_id parent_lookup page).map fun parent_id =>
    upsert_page_body existing parent_id message page only_changed replace_all_labels
      minor_edit

/-- The mutable state of `ConfluenceRenderer` (confluence_renderer.py):
`self.title`, `self.attachments`, `self.relative_links`. -/
structure RendererState where
  title : Option String := none
  attachments : List String := []
  relative_links : List RelativeLink := []
deriving DecidableEq, Repr

/-- mistune 3 `HTMLRenderer.heading` output for a heading without id
attributes. -/
def htmlHeading (text : String) (level : Nat) : String :=
  "<h" ++ toString level ++ ">" ++ text ++ "</h" ++ toString level ++ ">\n"

/-- confluence_renderer.py `ConfluenceRenderer.heading` (lines 84-91): record
the first level-1 heading as the title; omit exactly that heading from the
output when `strip_header` is set; otherwise defer to the mistune HTML
renderer. -/
def ConfluenceRenderer.heading (strip_header : Bool) (st : RendererState)
    (text : String) (level : Nat) : String × RendererState :=
  if st.title = none ∧ level = 1 then
    let st := { st with title := some text }
    if strip_header then ("", st)
    else (htmlHeading text level, st)
  else (htmlHeading text level, st)

/-- A markdown block as dispatched by mistune to the renderer: either a
heading (which `ConfluenceRenderer` intercepts) or any other construct,
abstracted by the markup mistune's dispatch produces for it (no other
renderer method reads or writes the recorded title). -/
inductive MdToken where
  | heading (text : String) (level : Nat)
  | other (markup : String)
deriving DecidableEq, Repr

/-- Render one token against the renderer state. -/
def renderToken (strip_header : Bool) (st : RendererState) (t : MdToken) :
    String × RendererState :=
  match t with
  | .heading text level => ConfluenceRenderer.heading strip_header st text level
  | .other markup => (markup, st)

/-- Render a token stream left to right, threading the renderer state and
concatenating the markup, as mistune does for a document's block sequence. -/
def renderTokens (strip_header : Bool) (st : RendererState) :
    List MdToken → String × RendererState
  | [] => ("", st)
  | t :: ts =>
    let out := renderToken strip_header st t
    let rest := renderTokens strip_header out.2 ts
    (out.1 ++ rest.1, rest.2)

/-- The text of the first level-1 heading of a token stream, if any. -/
def firstH1 : List MdToken → Option String
  | [] => none
  | .heading text 1 :: _ => some text
  | _ :: ts => firstH1 ts

/-- Split a token stream at its first level-1 heading. -/
def splitFirstH1 : List MdToken → Option (List MdToken × String × List MdToken)
  | [] => none
  | .heading text 1 :: ts => some ([], text, ts)
  | t :: ts => (splitFirstH1 ts).map (fun r => (t :: r.1, r.2.1, r.2.2))

/-- The markup a token produces when the heading special-casing does not
fire (the mistune default). -/
def defaultTokenMarkup : MdToken → String
  | .heading text level => htmlHeading text level
  | .other markup => markup

/-- confluence_renderer.py `ConfluenceTag`: name, text, attribute list,
namespace (field `ns`), children, CDATA flag. -/
inductive ConfluenceTag where
  | mk (name : String) (text : String) (attrib : List (String × String)) (ns : String)
      (children : List ConfluenceTag) (cdata : Bool)

/-- Strict lexicographic (code-point) comparison of character lists. -/
def charListLt (xs ys : List Char) : Bool :=
  match xs, ys with
  | [], [] => false
  | [], _ :: _ => true
  | _ :: _, [] => false
  | x :: xr, y :: yr =>
    if x.toNat < y.toNat then true
    else if y.toNat < x.toNat then false
    else charListLt xr yr

/-- Lexicographic order on attribute pairs, as used by Python's
`sorted(namespaced_attribs.items())` (tuple comparison). -/
def pairLe (a b : String × String) : Bool :=
  charListLt a.1.data b.1.data || (a.1 == b.1 && charListLe a.2.data b.2.data)

/-- Insert into a sorted attribute list. -/
def insertPairSorted (x : String × String) :
    List (String × String) → List (String × String)
  | [] => [x]
  | y :: ys => if pairLe x y then x :: y :: ys else y :: insertPairSorted x ys

/-- Sort attribute pairs (Python `sorted` on dict items). -/
def sortPairs : List (String × String) → List (String × String)
  | [] => []
  | x :: xs => insertPairSorted x (sortPairs xs)

mutual
/-- confluence_renderer.py `ConfluenceTag.render` (lines 28-53): namespaced
name, lexicographically sorted namespaced attributes, rendered children
(concatenated, as Python's `"".join`), then the text (CDATA-wrapped when
requested), with one trailing newline. -/
def ConfluenceTag.render : ConfluenceTag → String
  | .mk name text attrib ns children cdata =>
    let namespaced_name := ns ++ ":" ++ name
    let namespaced_attribs := sortPairs (attrib.map (fun p => (ns ++ ":" ++ p.1, p.2)))
    let attrs :=
      if ¬ namespaced_attribs.isEmpty then
        " " ++ String.intercalate " "
          (namespaced_attribs.map (fun p => p.1 ++ "=\"" ++ p.2 ++ "\""))
      else ""
    "<" ++ namespaced_name ++ attrs ++ ">" ++
      ConfluenceTag.renderChildren children ++
      (if cdata then "<![CDATA[" ++ text ++ "]]>" else text) ++
      "</" ++ namespaced_name ++ ">" ++ "\n"

/-- The concatenation of the rendered children. -/
def ConfluenceTag.renderChildren : List ConfluenceTag → String
  | [] => ""
  | c :: cs => c.render ++ ConfluenceTag.renderChildren cs
end

/-- A character allowed in a URL scheme (`urllib.parse.scheme_chars`). -/
def isSchemeChar (c : Char) : Bool :=
  c.isAlphanum || c == '+' || c == '-' || c == '.'

/-- Strip a leading `scheme:` from a URL, per `urllib.parse.urlsplit`: split at
the first `:` when it is preceded by a valid non-empty scheme starting with a
letter. -/
def removeScheme (l : List Char) : List Char :=
  match l.findIdx? (fun c => c == ':') with
  | some i =>
    if 0 < i ∧ (l.take i).all isSchemeChar ∧
        ((l.head?.map Char.isAlpha).getD false = true) then
      l.drop (i + 1)
    else l
  | none => l

/-- Model of `urllib.parse.urlparse(url).netloc`: present only when the
remainder after the scheme starts with `//`, and extends to the next
`/`, `?` or `#`. -/
def urlparse_netloc (url : String) : String :=
  match removeScheme url.data with
  | '/' :: '/' :: r =>
    String.mk (r.takeWhile (fun c => !(c == '/' || c == '?' || c == '#')))
  | _ => ""

/-- Split a character list on `/` separators. -/
def splitOnSlash : List Char → List (List Char)
  | [] => [[]]
  | c :: rest =>
    let r := splitOnSlash rest
    if c = '/' then [] :: r
    else
      match r with
      | s :: ss => (c :: s) :: ss
      | [] => [[c]]

/-- Model of `pathlib.PurePosixPath(s).name`: the last path segment, ignoring
empty and single-dot segments. -/
def path_name (s : String) : String :=
  String.mk
    (((splitOnSlash s.data).filter
      (fun seg => !(seg.isEmpty || seg == ['.']))).getLastD [])

/-- The value of an ASCII hex digit character. -/
def hexDigitVal (c : Char) : Option Nat :=
  if '0' ≤ c ∧ c ≤ '9' then some (c.toNat - '0'.toNat)
  else if 'a' ≤ c ∧ c ≤ 'f' then some (c.toNat - 'a'.toNat + 10)
  else if 'A' ≤ c ∧ c ≤ 'F' then some (c.toNat - 'A'.toNat + 10)
  else none

/-- Percent-decoding of a character list (`urllib.parse.unquote` restricted to
single-byte escapes; multi-byte UTF-8 escape sequences are out of scope for
the inputs under consideration). -/
def unquoteChars : List Char → List Char
  | [] => []
  | '%' :: a :: b :: rest =>
    match hexDigitVal a, hexDigitVal b with
    | some x, some y => Char.ofNat (16 * x + y) :: unquoteChars rest
    | _, _ => '%' :: unquoteChars (a :: b :: rest)
  | c :: rest => c :: unquoteChars rest

/-- Modelled from the spec (§4.2 Images): URL-decoding of a string, used to
state the claim's expected "URL-decoded" filename. -/
def percent_unquote (s : String) : String :=
  String.mk (unquoteChars s.data)

/-- confluence_renderer.py `ConfluenceRenderer.image` (lines 144-162): build
the `alt`/`title` attributes, then reference the image either as an uploaded
attachment (when the parsed URL has no netloc) — also appending the source to
the attachments list — or as an external URL. -/
def ConfluenceRenderer.image (st : RendererState) (src : String)
    (title : Option String) (text : String) : String × RendererState :=
  let attributes := [("alt", text)] ++
    (match title with
     | some t => if t ≠ "" then [("title", t)] else []
     | none => [])
  if urlparse_netloc src = "" then
    let basename := path_name src
    let url_tag := ConfluenceTag.mk "attachment" "" [("filename", basename)] "ri" [] false
    ((ConfluenceTag.mk "image" "" attributes "ac" [url_tag] false).render,
      { st with attachments := st.attachments ++ [src] })
  else
    let url_tag := ConfluenceTag.mk "url" "" [("value", src)] "ri" [] false
    ((ConfluenceTag.mk "image" "" attributes "ac" [url_tag] false).render, st)

/-- The outcome of the external `yaml.safe_load` call on the frontmatter text:
a mapping, some non-mapping document, a `yaml.parser.ParserError` (the only
exception document.py catches), or any other YAML loading exception
(`ScannerError`, `ComposerError`, ... — e.g. tab-indented input raises
`ScannerError`). -/
inductive YamlLoadResult where
  | okMapping (entries : List (String × YamlVal))
  | okOther
  | parserError
  | otherError
deriving DecidableEq, Repr

/-- An uncaught Python exception escaping the document pipeline. -/
inductive DocError where
  | yamlError
  | labelsTypeError
deriving DecidableEq, Repr

/-- The scan loop of `get_document_frontmatter` (document.py lines 304-309)
over the lines after the opening delimiter: accumulate lines into
`frontmatter_yaml` until the first `"---\n"`, whose enumeration index `i`
yields `frontmatter_end_line = i + 2`; if none is found the end line stays 0. -/
def fmScan : List String → Nat → String × Nat
  | [], _ => ("", 0)
  | line :: rest, index =>
    if line = "---\n" then ("", index + 2)
    else
      let r := fmScan rest (index + 1)
      (line ++ r.1, r.2)

/-- Lookup in the association-list model of a Python dict. -/
def dictLookup (d : List (String × YamlVal)) (k : String) : Option YamlVal :=
  (d.find? (fun e => e.1 == k)).map (fun e => e.2)

/-- Key assignment in the association-list model of a Python dict. -/
def dictInsert (d : List (String × YamlVal)) (k : String) (v : YamlVal) :
    List (String × YamlVal) :=
  d.filter (fun e => !(e.1 == k)) ++ [(k, v)]

/-- document.py `get_document_frontmatter` (lines 300-321), with the external
`yaml.safe_load` passed in as `load_yaml`.  The YAML text is parsed only when
both the gathered text and the end line are truthy; only `ParserError` is
caught; a non-mapping parse yields an empty dict; on success the mapping plus
the `frontmatter_end_line` key is returned. -/
def get_document_frontmatter (load_yaml : String → YamlLoadResult)
    (markdown_lines : List String) : Except DocError (List (String × YamlVal)) :=
  let scan :=
    match markdown_lines with
    | first :: rest => if first = "---\n" then fmScan rest 0 else ("", 0)
    | [] => ("", 0)
  match scan with
  | (frontmatter_yaml, frontmatter_end_line) =>
    let parsed : Except DocError (Option (List (String × YamlVal))) :=
      if frontmatter_yaml ≠ "" ∧ frontmatter_end_line ≠ 0 then
        match load_yaml frontmatter_yaml with
        | .okMapping entries => .ok (some entries)
        | .okOther => .ok none
        | .parserError => .ok none
        | .otherError => .error .yamlError
      else .ok none
    parsed.map fun fm =>
      match fm with
      | some entries =>
        dictInsert entries "frontmatter_end_line" (.scalar (.intV frontmatter_end_line))
      | none => []

/-- The slicing performed by `get_page_data_from_lines` (document.py lines
248-250): drop the frontmatter lines exactly when the returned dict carries a
`frontmatter_end_line` key. -/
def sliced_markdown_lines (load_yaml : String → YamlLoadResult)
    (markdown_lines : List String) : Except DocError (List String) :=
  (get_document_frontmatter load_yaml markdown_lines).map fun frontmatter =>
    match dictLookup frontmatter "frontmatter_end_line" with
    | some (.scalar (.intV e)) => markdown_lines.drop e.toNat
    | _ => markdown_lines

/-- document.py `parse_page` (lines 272-297), with mistune's block parsing
abstracted by `tokenize`: render the joined lines and build a `Page` from the
renderer's markup, title, attachments and relative links. -/
def parse_page (tokenize : String → List MdToken) (strip_header : Bool)
    (markdown_lines : List String) : Page :=
  let r := renderTokens strip_header {} (tokenize (String.join markdown_lines))
  { title := r.2.title.map (fun t => YamlVal.scalar (.strV t))
    body := r.1
    attachments := r.2.attachments
    relative_links := r.2.relative_links }

/-- document.py `get_page_data_from_lines` (lines 242-269): slice off the
frontmatter, parse the body, override the title with the frontmatter `title`
value when present, and type-check the frontmatter `labels` (a non-list raises
`TypeError`). -/
def get_page_data_from_lines (tokenize : String → List MdToken)
    (load_yaml : String → YamlLoadResult) (strip_header : Bool)
    (markdown_lines : List String) : Except DocError Page :=
  match get_document_frontmatter load_yaml markdown_lines with
  | .error e => .error e
  | .ok frontmatter =>
    let body_lines :=
      match dictLookup frontmatter "frontmatter_end_line" with
      | some (.scalar (.intV e)) => markdown_lines.drop e.toNat
      | _ => markdown_lines
    let page := parse_page tokenize strip_header body_lines
    let page :=
      match dictLookup frontmatter "title" with
      | some t => { page with title := some t }
      | none => page
    match dictLookup frontmatter "labels" with
    | some (.listV items) => .ok { page with labels := some (items.map YamlScalar.pyStr) }
    | some _ => .error .labelsTypeError
    | none => .ok page

/-- Truthiness of `page.title` (`if not page.title` in document.py). -/
def titleTruthy : Option YamlVal → Bool
  | none => false
  | some v => v.truthy

/-- document.py `get_page_data_from_file_path` (lines 209-239), with the file
read abstracted into its line list and the path's stem (`file_path.stem`,
the file name without its final extension): parse the lines, fall back to the
stem when the resulting title is falsy, and record the file path. -/
def get_page_data_from_file_path (tokenize : String → List MdToken)
    (load_yaml : String → YamlLoadResult) (strip_header : Bool)
    (markdown_lines : List String) (file_path : String) (stem : String) :
    Except DocError Page :=
  (get_page_data_from_lines tokenize load_yaml strip_header markdown_lines).map
    fun page =>
      let page :=
        if ¬ titleTruthy page.title then { page with title := some (.scalar (.strV stem)) }
        else page
      { page with file_path := some file_path }

/-- Whether the pattern is a prefix of the list. -/
def listStartsWith : List Char → List Char → Bool
  | _, [] => true
  | [], _ :: _ => false
  | c :: cs, p :: ps => c == p && listStartsWith cs ps

/-- Python `str.replace` on character lists (fuel-indexed structural
recursion; each step consumes at least one character, so `s.length` fuel is
always enough): replace each non-overlapping occurrence of `pat` left to
right.  (For an empty `pat` Python interleaves `rep` between characters; that
case never occurs here and is modelled as the identity.) -/
def pyReplaceCharsFuel : Nat → List Char → List Char → List Char → List Char
  | 0, s, _, _ => s
  | fuel + 1, s, pat, rep =>
    match s with
    | [] => []
    | c :: rest =>
      if pat ≠ [] ∧ listStartsWith (c :: rest) pat then
        rep ++ pyReplaceCharsFuel fuel ((c :: rest).drop pat.length) pat rep
      else c :: pyReplaceCharsFuel fuel rest pat rep

/-- Python `str.replace` on strings. -/
def pyStrReplace (s pat rep : String) : String :=
  String.mk (pyReplaceCharsFuel s.data.length s.data pat.data rep.data)

/-- Whether `pat` occurs as a contiguous substring of `s`. -/
def strContains (s pat : String) : Bool :=
  decide (pat.data <:+: s.data)

/-- __main__.py lines 703-724 (tail of `collect_pages_to_upload`, file-list
mode): when exactly one page was collected, apply the command-line title if
given, and — when the page has relative links — log a warning, run the
restore loop, and clear `relative_links`.  The loop body
`only_page.body.replace(link_data.replacement, link_data.escaped_original)`
is an expression statement whose result is discarded (`str.replace` returns a
new string and mutates nothing), so the page body is left unchanged by the
loop; the embedding therefore leaves `body` untouched. -/
def collect_single_page_fixup (args_title : Option String) (pages : List Page) :
    List Page :=
  match pages with
  | [only_page] =>
    let only_page :=
      match args_title with
      | some t => if t ≠ "" then { only_page with title := some (.scalar (.strV t)) }
                  else only_page
      | none => only_page
    if ¬ only_page.relative_links.isEmpty then
      [{ only_page with relative_links := [] }]
    else [only_page]
  | _ => pages

/-- Modelled from the spec (§4.5 edge case: "restore any placeholders to
original link text"): the restore loop as specified, i.e. with the result of
each replace assigned back to the body. -/
def restore_relative_link_placeholders (body : String) (links : List RelativeLink) :
    String :=
  links.foldl (fun b l => pyStrReplace b l.replacement l.escaped_original) body

/-- __main__.py lines 313-316: the duplicate-title check — some title occurs
more than once among the collected pages (`Counter(...).most_common()` with a
count above 1). -/
def page_title_collides (pages : List Page) : Bool :=
  let titles := pages.map (fun p => p.title)
  titles.any (fun t => titles.count t > 1)

/-- One iteration of the publishing loop of `main` (__main__.py lines
388-471): once a page has failed the loop is aborted, otherwise the page is
upserted and its calls recorded (attachment upserts and console/TUI output are
not modelled). -/
def publish_loop_step (existing_for : Page → Option RemotePage)
    (parent_lookup_for : Page → Option Nat) (message : String)
    (only_changed replace_all_labels minor_edit : Bool)
    (acc : Option Nat × List ConfCall) (page : Page) : Option Nat × List ConfCall :=
  match acc.1 with
  | some _ => acc
  | none =>
    match upsert_page (existing_for page) (parent_lookup_for page) message page
        only_changed replace_all_labels minor_edit with
    | .ok r => (none, acc.2 ++ r.calls)
    | .error _ => (some 1, acc.2)

/-- __main__.py `main`, from the duplicate-title check (line 313) to the
publishing loop: reject the batch with exit code 1 when two titles collide,
then reject it when some attachment path does not exist
(`attachment_exists` abstracts the filesystem check), and only then start
issuing wiki calls.  Returns the exit code (if any) and the trace of mutating
wiki calls. -/
def main_publish (pages : List Page) (attachment_exists : Page → String → Bool)
    (existing_for : Page → Option RemotePage) (parent_lookup_for : Page → Option Nat)
    (message : String) (only_changed replace_all_labels minor_edit : Bool) :
    Option Nat × List ConfCall :=
  if page_title_collides pages then (some 1, [])
  else if ¬ (pages.all (fun p => p.attachments.all (attachment_exists p))) then
    (some 1, [])
  else
    pages.foldl
      (publish_loop_step existing_for parent_lookup_for message only_changed
        replace_all_labels minor_edit)
      (none, [])

/-- The mistune tokenizer for the C4 witness/counterexample inputs: the
document `# Y\n` is one level-1 heading block. -/
def c4tokenize : String → List MdToken :=
  fun s => if s = "# Y\n" then [.heading "Y" 1] else []

/-- pyyaml on `title: X\n`: the mapping with string value `X`. -/
def c7yamlOk : String → YamlLoadResult :=
  fun s =>
    if s = "title: X\n" then .okMapping [("title", .scalar (.strV "X"))] else .okOther

/-- pyyaml on the C4 counterexample frontmatter `title: ''\n`: a mapping whose
`title` value is the empty string. -/
def c4yamlEmpty : String → YamlLoadResult :=
  fun s =>
    if s = "title: ''\n" then .okMapping [("title", .scalar (.strV ""))] else .okOther

/-- The C4 witness document lines. -/
def c4linesW : List String := ["---\n", "title: X\n", "---\n", "# Y\n"]

/-- The frontmatter dict returned for the C4 witness document. -/
def c4entriesW : List (String × YamlVal) :=
  dictInsert [("title", .scalar (.strV "X"))] "frontmatter_end_line"
    (.scalar (.intV 3))

/-- The page assembled from the C4 witness document. -/
def c4pageW : Page :=
  match get_page_data_from_file_path c4tokenize c7yamlOk false c4linesW
      "doc.md" "doc" with
  | .ok p => p
  | .error _ => {}

/-- The rendered attribute text of the `ac:image` element: the `alt` text and,
when a non-empty title is supplied, the `title`, in sorted attribute order. -/
def image_attrs_markup : Option String → String → String
  | some t, text =>
    if t ≠ "" then " ac:alt=\"" ++ text ++ "\" ac:title=\"" ++ t ++ "\""
    else " ac:alt=\"" ++ text ++ "\""
  | none, text => " ac:alt=\"" ++ text ++ "\""

/-- Whether a token is a level-1 heading. -/
def isH1 : MdToken → Bool
  | .heading _ 1 => true
  | _ => false

/-- The concatenated default markup of a token stream. -/
def joinedMarkup (toks : List MdToken) : String :=
  toks.foldr (fun t acc => defaultTokenMarkup t ++ acc) ""
/-- Defs for the C2 witness: a concrete page and the concrete remote page left
behind by the first upsert call. -/
def c2page : Page :=
  { title := some (.scalar (.strV "T")), body := "hello", space := some "SP" }
/-- The concrete remote page for the C2 witness. -/
def c2remote : RemotePage :=
  { id := 7
    version := { number := 3
                 message := message_with_content_hash "msg" (get_content_hash "hello") }
    ancestors := [42]
    labelNames := [] }
/-- Concrete page for the C5 witness. -/
def c5pageA : Page :=
  { title := some (.scalar (.strV "A")), body := "b", parent_id := some 5,
    labels := some ["z", "y"] }
/-- Concrete remote page for the C5 witness. -/
def c5exA : RemotePage :=
  { id := 3, version := { number := 1, message := "" }, ancestors := [5],
    labelNames := ["x", "y"] }
/-- The C5 witness upsert result. -/
def c5resA : UpsertResult :=
  upsert_page_body (some c5exA) (some 5) "m" c5pageA false false false
/-- Concrete page for the C5 counterexample. -/
def c5pageB : Page :=
  { title := some (.scalar (.strV "B")), body := "", parent_id := some 5,
    labels := some ["x", "x", "y"] }
/-- Concrete remote page for the C5 counterexample: the version message
carries the matching content hash, so the action is SKIPPED. -/
def c5exB : RemotePage :=
  { id := 9
    version := { number := 2, message := message_with_content_hash "" (get_content_hash "") }
    ancestors := [5]
    labelNames := ["x", "y", "y"] }
/-- The relative-link record for the C1 failing input. -/
def c1link : RelativeLink :=
  { path := "other.md"
    fragment := ""
    replacement := "md2cf-internal-link-00000000-0000-4000-8000-000000000000"
    original := "other.md"
    escaped_original := "other.md" }
/-- The single collected page for the C1 failing input: its body still holds
the placeholder token recorded in `relative_links`. -/
def c1page : Page :=
  { title := some (.scalar (.strV "T"))
    body := "<p>see md2cf-internal-link-00000000-0000-4000-8000-000000000000 here</p>"
    relative_links := [c1link] }
/-- First page of the C8 witness batch. -/
def c8pageA : Page :=
  { title := some (.scalar (.strV "same")), body := "one" }
/-- Second page of the C8 witness batch, with the identical title. -/
def c8pageB : Page :=
  { title := some (.scalar (.strV "same")), body := "two" }
/-- YAML loader exhibiting pyyaml's actual behaviour on the C7 counterexample
input: `yaml.safe_load("\t- a\n")` raises `yaml.scanner.ScannerError`
("found character that cannot start any token"), which is not a
`yaml.parser.ParserError`. -/
def c7yamlTab : String → YamlLoadResult :=
  fun s => if s = "\t- a\n" then .otherError else .okOther

theorem toHex8_length (w : Nat) : (toHex8 w).length = 8 := by
  simp [toHex8]

theorem hexChar_isLowerHexDigit (i : Fin 16) : isLowerHexDigit (hexChar i) = true := by
  revert i
  decide

theorem toHex8_mem_hex (w : Nat) (c : Char) (hc : c ∈ toHex8 w) :
    isLowerHexDigit c = true := by
  unfold toHex8 at hc
  rcases List.mem_map.mp hc with ⟨k, _, rfl⟩
  exact hexChar_isLowerHexDigit _

theorem sha1Hex_length (msg : List Nat) : (sha1Hex msg).length = 40 := by
  unfold sha1Hex
  rcases sha1Words msg with ⟨a, b, c, d, e⟩
  simp [String.length, toHex8_length]

theorem sha1Hex_all_hex (msg : List Nat) :
    (sha1Hex msg).data.all isLowerHexDigit = true := by
  unfold sha1Hex
  rcases sha1Words msg with ⟨a, b, c, d, e⟩
  refine List.all_eq_true.mpr fun x hx => ?_
  have hx' : x ∈ toHex8 a ++ toHex8 b ++ toHex8 c ++ toHex8 d ++ toHex8 e := hx
  simp only [List.mem_append] at hx'
  rcases hx' with ((((h | h) | h) | h) | h) <;> exact toHex8_mem_hex _ _ h

theorem get_content_hash_length (body : String) : (get_content_hash body).length = 40 :=
  sha1Hex_length _

theorem get_content_hash_all_hex (body : String) :
    (get_content_hash body).data.all isLowerHexDigit = true :=
  sha1Hex_all_hex _

theorem markerHashAtEnd_append (p h : List Char) (hlen : h.length = 40)
    (hhex : h.all isLowerHexDigit = true) :
    markerHashAtEnd (p ++ '[' :: 'v' :: (h ++ [']'])) = some h := by
  have hlen' : (p ++ '[' :: 'v' :: (h ++ [']'])).length = p.length + 43 := by
    simp [hlen]
  have hdrop : (p ++ '[' :: 'v' :: (h ++ [']'])).drop
      ((p ++ '[' :: 'v' :: (h ++ [']'])).length - 43) = '[' :: 'v' :: (h ++ [']']) := by
    rw [hlen']
    have harith : p.length + 43 - 43 = p.length := by omega
    rw [harith, List.drop_left]
  unfold markerHashAtEnd
  rw [hdrop, hlen']
  have hcond : 43 ≤ p.length + 43 ∧ ('[' :: 'v' :: (h ++ [']'])).take 2 = ['[', 'v'] ∧
      ('[' :: 'v' :: (h ++ [']'])).getLast? = some ']' ∧
      ((('[' :: 'v' :: (h ++ [']'])).drop 2).dropLast.all isLowerHexDigit = true) := by
    refine ⟨by omega, rfl, ?_, ?_⟩
    · exact List.getLast?_concat ('[' :: 'v' :: h)
    · simp only [List.drop_succ_cons, List.drop_zero]
      rw [List.dropLast_concat]
      exact hhex
  rw [if_pos hcond]
  simp only [List.drop_succ_cons, List.drop_zero]
  rw [List.dropLast_concat]

theorem markerHashAtEnd_some (l hx : List Char) (hres : markerHashAtEnd l = some hx) :
    l = l.take (l.length - 43) ++ '[' :: 'v' :: (hx ++ [']']) ∧
      hx.length = 40 ∧ hx.all isLowerHexDigit = true := by
  unfold markerHashAtEnd at hres
  by_cases hcond : 43 ≤ l.length ∧ (l.drop (l.length - 43)).take 2 = ['[', 'v'] ∧
      (l.drop (l.length - 43)).getLast? = some ']' ∧
      (((l.drop (l.length - 43)).drop 2).dropLast.all isLowerHexDigit = true)
  · rw [if_pos hcond] at hres
    rcases hcond with ⟨hge, htake, hlast, hhex⟩
    have hx_eq : ((l.drop (l.length - 43)).drop 2).dropLast = hx :=
      Option.some_inj.mp hres
    set tail := l.drop (l.length - 43) with htail
    have htail_len : tail.length = 43 := by
      rw [htail, List.length_drop]
      omega
    have hrest_len : (tail.drop 2).length = 41 := by
      rw [List.length_drop, htail_len]
    have hrest_ne : tail.drop 2 ≠ [] := by
      intro hne
      rw [hne] at hrest_len
      simp at hrest_len
    have hlast2 : (tail.drop 2).getLast? = some ']' := by
      have hdecomp : tail = tail.take 2 ++ tail.drop 2 := (List.take_append_drop 2 tail).symm
      rw [hdecomp, List.getLast?_append_of_ne_nil _ hrest_ne] at hlast
      exact hlast
    have hrest_decomp : tail.drop 2 = hx ++ [']'] := by
      conv_lhs => rw [← List.dropLast_append_getLast hrest_ne]
      rw [List.getLast?_eq_getLast _ hrest_ne] at hlast2
      rw [Option.some_inj.mp hlast2, hx_eq]
    have htail_decomp : tail = '[' :: 'v' :: (hx ++ [']']) := by
      have hdecomp : tail = tail.take 2 ++ tail.drop 2 := (List.take_append_drop 2 tail).symm
      rw [hdecomp, htake, hrest_decomp]
      rfl
    refine ⟨?_, ?_, ?_⟩
    · conv_lhs => rw [← List.take_append_drop (l.length - 43) l]
      rw [← htail, htail_decomp]
    · have : hx.length + 1 = 41 := by
        have := hrest_len
        rw [hrest_decomp] at this
        simpa using this
      omega
    · rw [← hx_eq]
      exact hhex
  · rw [if_neg hcond] at hres
    exact Option.noConfusion hres

theorem content_hash_search_append_marker (p h : String) (hlen : h.length = 40)
    (hhex : h.data.all isLowerHexDigit = true) :
    content_hash_search (p ++ hashMarker h) = some h := by
  have hdata : (p ++ hashMarker h).data = p.data ++ '[' :: 'v' :: (h.data ++ [']']) := by
    simp [hashMarker, String.data_append]
  unfold content_hash_search
  rw [hdata]
  have hre : p.data ++ '[' :: 'v' :: (h.data ++ [']']) =
      (p.data ++ '[' :: 'v' :: h.data) ++ [']'] := by
    simp
  have hlast : (p.data ++ '[' :: 'v' :: (h.data ++ [']'])).getLast? = some ']' := by
    rw [hre]
    exact List.getLast?_concat _
  rw [hlast]
  have hbeq : (some ']' == some '\n') = false := by decide
  rw [hbeq]
  simp only [Bool.false_eq_true, if_false]
  rw [markerHashAtEnd_append p.data h.data hlen hhex]
  rfl

theorem content_hash_search_append_marker_newline (p h : String) (hlen : h.length = 40)
    (hhex : h.data.all isLowerHexDigit = true) :
    content_hash_search (p ++ hashMarker h ++ "\n") = some h := by
  have hdata : (p ++ hashMarker h ++ "\n").data =
      (p.data ++ '[' :: 'v' :: (h.data ++ [']'])) ++ ['\n'] := by
    simp [hashMarker, String.data_append]
  unfold content_hash_search
  rw [hdata]
  have hlast : ((p.data ++ '[' :: 'v' :: (h.data ++ [']'])) ++ ['\n']).getLast? =
      some '\n' := List.getLast?_concat _
  rw [hlast]
  have hbeq : (some '\n' == some '\n') = true := by decide
  rw [hbeq]
  simp only [if_true]
  rw [List.dropLast_concat]
  rw [markerHashAtEnd_append p.data h.data hlen hhex]
  rfl

theorem content_hash_search_some (m hx : String)
    (hres : content_hash_search m = some hx) :
    hx.length = 40 ∧ hx.data.all isLowerHexDigit = true ∧
      ∃ q : String, m = q ++ hashMarker hx ∨ m = q ++ hashMarker hx ++ "\n" := by
  unfold content_hash_search at hres
  by_cases hnl : (m.data.getLast? == some '\n') = true
  · rw [hnl] at hres
    simp only [if_true] at hres
    rcases hmk : markerHashAtEnd m.data.dropLast with _ | hx0
    · rw [hmk] at hres
      exact Option.noConfusion hres
    · rw [hmk] at hres
      simp only [Option.map] at hres
      have hx_eq : String.mk hx0 = hx := Option.some_inj.mp hres
      rcases markerHashAtEnd_some _ _ hmk with ⟨hdecomp, hlen, hhex⟩
      have hne : m.data ≠ [] := by
        intro hemp
        rw [hemp] at hnl
        simp at hnl
      have hlastc : m.data.getLast hne = '\n' := by
        have hq := List.getLast?_eq_getLast m.data hne
        rw [hq] at hnl
        have hq2 := eq_of_beq hnl
        exact Option.some_inj.mp hq2
      have hm : m.data = m.data.dropLast ++ ['\n'] := by
        conv_lhs => rw [← List.dropLast_append_getLast hne]
        rw [hlastc]
      refine ⟨?_, ?_, ?_⟩
      · rw [← hx_eq]
        exact hlen
      · rw [← hx_eq]
        exact hhex
      · refine ⟨String.mk (m.data.dropLast.take (m.data.dropLast.length - 43)), Or.inr ?_⟩
        apply String.ext
        rw [hm]
        conv_lhs => rw [hdecomp]
        rw [← hx_eq]
        simp [hashMarker, String.data_append]
  · rw [Bool.of_not_eq_true hnl] at hres
    simp only [Bool.false_eq_true, if_false] at hres
    rcases hmk : markerHashAtEnd m.data with _ | hx0
    · rw [hmk] at hres
      exact Option.noConfusion hres
    · rw [hmk] at hres
      simp only [Option.map] at hres
      have hx_eq : String.mk hx0 = hx := Option.some_inj.mp hres
      rcases markerHashAtEnd_some _ _ hmk with ⟨hdecomp, hlen, hhex⟩
      refine ⟨?_, ?_, ?_⟩
      · rw [← hx_eq]
        exact hlen
      · rw [← hx_eq]
        exact hhex
      · refine ⟨String.mk (m.data.take (m.data.length - 43)), Or.inl ?_⟩
        apply String.ext
        conv_lhs => rw [hdecomp]
        rw [← hx_eq]
        simp [hashMarker, String.data_append]

/-- Claim C3 (amended): the content-hash extraction used by
`page_needs_updating` and `upsert_attachment` finds a hash exactly when the
remote message ends with the literal text `[v` + 40 lowercase hex characters +
`]`, optionally followed by one trailing newline (Python's `$` also matches
just before a final newline); arbitrary free text may precede the marker; a
marker-shaped substring anywhere else never matches; and in `only_changed`
mode the outgoing message is the human-supplied message, a space, and the
marker, or the marker alone when no message is given. -/
theorem content_hash_marker_extraction_spec :
    (∀ p h : String, h.length = 40 → h.data.all isLowerHexDigit = true →
      content_hash_search (p ++ hashMarker h) = some h ∧
        content_hash_search (p ++ hashMarker h ++ "\n") = some h) ∧
    (∀ m hx : String, content_hash_search m = some hx →
      hx.length = 40 ∧ hx.data.all isLowerHexDigit = true ∧
        ∃ q : String, m = q ++ hashMarker hx ∨ m = q ++ hashMarker hx ++ "\n") ∧
    (∀ message hash : String,
      message_with_content_hash message hash =
        if message = "" then hashMarker hash else message ++ " " ++ hashMarker hash) := by
  refine ⟨fun p h hlen hhex => ⟨?_, ?_⟩, fun m hx hres => ?_, fun message hash => ?_⟩
  · exact content_hash_search_append_marker p h hlen hhex
  · exact content_hash_search_append_marker_newline p h hlen hhex
  · exact content_hash_search_some m hx hres
  · unfold message_with_content_hash hashMarker
    by_cases hm : message = ""
    · simp [hm]
    · simp only [ne_eq, hm, not_false_iff, if_true, if_neg hm]
      apply String.ext
      simp [String.data_append]

/-- Witness for C3: the extraction succeeds on a message with free text before
the marker, applied at a concrete 40-hex-character hash. -/
theorem content_hash_marker_extraction_spec_witness :
    ("aaaaaaaaaaaaaaaaaaaaaaaaaaaaaaaaaaaaaaaa" : String).length = 40 ∧
      content_hash_search
        ("hello there " ++ hashMarker "aaaaaaaaaaaaaaaaaaaaaaaaaaaaaaaaaaaaaaaa") =
        some "aaaaaaaaaaaaaaaaaaaaaaaaaaaaaaaaaaaaaaaa" :=
  ⟨by decide,
    (content_hash_marker_extraction_spec.1 "hello there "
      "aaaaaaaaaaaaaaaaaaaaaaaaaaaaaaaaaaaaaaaa" (by decide) (by decide)).1⟩

/-- Counterexample to C3 as stated: a message consisting of the marker plus a
single trailing newline does not end with the literal `]`, yet Python's regex
search (whose `$` also matches before a final newline) finds the hash. -/
theorem content_hash_marker_trailing_newline_cex :
    (content_hash_search "[vaaaaaaaaaaaaaaaaaaaaaaaaaaaaaaaaaaaaaaaa]\n").isSome = true ∧
      endsWithHashMarker "[vaaaaaaaaaaaaaaaaaaaaaaaaaaaaaaaaaaaaaaaa]\n" = false := by
  constructor
  · decide
  · decide

theorem content_hash_search_message_with (message h : String) (hlen : h.length = 40)
    (hhex : h.data.all isLowerHexDigit = true) :
    content_hash_search (message_with_content_hash message h) = some h := by
  unfold message_with_content_hash
  by_cases hm : message = ""
  · rw [if_neg (by simp [hm])]
    have hp := content_hash_search_append_marker "" h hlen hhex
    have heq : ("" : String) ++ hashMarker h = "[v" ++ h ++ "]" := by
      apply String.ext
      simp [hashMarker, String.data_append]
    rw [heq] at hp
    exact hp
  · rw [if_pos (by simp [hm])]
    have hp := content_hash_search_append_marker (message ++ " ") h hlen hhex
    have heq : (message ++ " ") ++ hashMarker h = message ++ " [v" ++ h ++ "]" := by
      apply String.ext
      simp [hashMarker, String.data_append]
    rw [heq] at hp
    exact hp

/-- Claim C2: for a page with fixed title, space and body, no parent and no
labels, upserting twice with `only_changed` — the second time against a wiki
whose remote page reflects the first call (version message equal to the first
call's outgoing message, a single ancestor) — yields CREATED then SKIPPED,
with no wiki write at all in the second call; `get_content_hash` is the SHA-1
hex digest of the body alone, hence identical for identical bodies. -/
theorem upsert_page_only_changed_idempotent (page : Page) (message : String)
    (ex : RemotePage)
    (hpid : page.parent_id = none) (hpt : page.parent_title = none)
    (hlab : page.labels = none)
    (hmsg : ex.version.message =
      message_with_content_hash message (get_content_hash page.body))
    (hanc : ex.ancestors.length = 1) :
    (upsert_page none none message page true false false).map (fun r => r.action) =
        .ok .CREATED ∧
      ∃ r2, upsert_page (some ex) none message page true false false = .ok r2 ∧
        r2.action = .SKIPPED ∧ r2.calls = [] ∧
        get_content_hash page.body = sha1Hex (strUtf8 page.body) := by
  have hneeds : ∀ p2 : Page, p2.parent_id = none → p2.body = page.body →
      page_needs_updating p2 ex false = false := by
    intro p2 hp1 hp2
    unfold page_needs_updating
    rw [if_neg (by simp [hanc])]
    rw [if_neg (by simp [hp1])]
    rw [if_neg (by simp)]
    have hsearch : content_hash_search ex.version.message =
        some (get_content_hash page.body) := by
      rw [hmsg]
      exact content_hash_search_message_with message (get_content_hash page.body)
        (get_content_hash_length page.body) (get_content_hash_all_hex page.body)
    rw [hsearch, hp2]
    simp
  have hresolve : resolve_parent_id none page = .ok none := by
    unfold resolve_parent_id
    rw [if_pos hpid, hpt]
  constructor
  · unfold upsert_page
    rw [hresolve]
    rfl
  · refine ⟨{ action := .SKIPPED, response := ex, calls := [] }, ?_, rfl, rfl, rfl⟩
    unfold upsert_page
    rw [hresolve]
    simp only [Except.map]
    refine congrArg Except.ok ?_
    unfold upsert_page_body
    dsimp only
    rw [if_neg (by
      have hh := hneeds { page with parent_id := none } rfl rfl
      simp [hh])]
    simp [hlab, labelsTruthy]

/-- Witness for C2 at a concrete page and remote state. -/
theorem upsert_page_only_changed_idempotent_witness :
    (upsert_page none none "msg" c2page true false false).map (fun r => r.action) =
        .ok .CREATED ∧
      ∃ r2, upsert_page (some c2remote) none "msg" c2page true false false = .ok r2 ∧
        r2.action = .SKIPPED ∧ r2.calls = [] ∧
        get_content_hash c2page.body = sha1Hex (strUtf8 c2page.body) :=
  upsert_page_only_changed_idempotent c2page "msg" c2remote rfl rfl rfl rfl rfl

/-- Claim C5 (amended): in `upsert_page`, when the remote page exists and
replace-all-labels mode is off, the additive `add_labels` call is made exactly
when `page.labels` is a non-empty list whose sorted contents differ from the
sorted remote label names — and it is made exactly once, regardless of the
computed action, including SKIP (the label block in upsert.py lines 112-118 is
not guarded by the action); when the two label collections are equal as
multisets (equal once sorted, any ordering), no label call is made. -/
theorem upsert_page_label_attach_spec (page : Page) (ex : RemotePage)
    (parent_lookup : Option Nat) (message : String)
    (only_changed minor_edit : Bool) (ls : List String) (r : UpsertResult)
    (hlab : page.labels = some ls)
    (hr : upsert_page (some ex) parent_lookup message page only_changed false
      minor_edit = .ok r) :
    (ls ≠ [] → pySorted ex.labelNames ≠ pySorted ls →
      r.calls.filter ConfCall.isAddLabels = [ConfCall.addLabels ex.id ls]) ∧
    (pySorted ex.labelNames = pySorted ls →
      r.calls.filter ConfCall.isAddLabels = []) := by
  unfold upsert_page at hr
  cases hres : resolve_parent_id parent_lookup page with
  | error e =>
    rw [hres] at hr
    exact absurd hr (by simp [Except.map])
  | ok pid =>
    rw [hres] at hr
    simp only [Except.map] at hr
    have hbody : upsert_page_body (some ex) pid message page only_changed false
        minor_edit = r := by
      exact Except.ok.inj hr
    subst hbody
    unfold upsert_page_body
    dsimp only
    constructor
    · intro hne hsort
      split <;>
      · dsimp only
        simp only [List.filter_append]
        simp [labelsTruthy, labels_need_updating, hlab, update_page_response,
          ConfCall.isAddLabels, List.isEmpty_iff, bne_iff_ne, hne, hsort]
    · intro hsort
      split <;>
      · dsimp only
        simp only [List.filter_append]
        simp [labelsTruthy, labels_need_updating, hlab, update_page_response,
          ConfCall.isAddLabels, List.isEmpty_iff, bne_iff_ne, hsort]

/-- Witness for C5: differently sorted non-empty label lists whose sorted
forms differ produce exactly one add_labels call. -/
theorem upsert_page_label_attach_spec_witness :
    (["z", "y"] : List String) ≠ [] ∧ pySorted ["x", "y"] ≠ pySorted ["z", "y"] ∧
      c5resA.calls.filter ConfCall.isAddLabels = [ConfCall.addLabels 3 ["z", "y"]] :=
  ⟨by decide, by decide,
    (upsert_page_label_attach_spec c5pageA c5exA none "m" false false ["z", "y"]
      c5resA rfl rfl).1 (by decide) (by decide)⟩

/-- Counterexample to C5 as stated: the page and remote label collections are
equal as sets (mutual inclusion below) and the computed action is SKIP, yet
the additive add_labels call is still made — the label block is not guarded by
the action and compares sorted lists (multisets), not sets. -/
theorem upsert_page_label_attach_cex :
    (upsert_page (some c5exB) none "" c5pageB true false false).map
        (fun r => (r.action, r.calls.filter ConfCall.isAddLabels)) =
      .ok (UpsertAction.SKIPPED, [ConfCall.addLabels 9 ["x", "x", "y"]]) ∧
      (["x", "x", "y"] : List String) ⊆ ["x", "y", "y"] ∧
      (["x", "y", "y"] : List String) ⊆ ["x", "x", "y"] := by
  refine ⟨?_, by decide, by decide⟩
  have hresolve : resolve_parent_id none c5pageB = .ok (some 5) := by
    unfold resolve_parent_id c5pageB
    simp
  unfold upsert_page
  rw [hresolve]
  simp only [Except.map]
  refine congrArg Except.ok ?_
  unfold upsert_page_body
  dsimp only
  have hneeds : page_needs_updating { c5pageB with parent_id := some 5 } c5exB false =
      false := by
    unfold page_needs_updating
    rw [if_neg (by simp [c5pageB])]
    rw [if_neg (by simp [c5pageB, c5exB])]
    rw [if_neg (by simp)]
    have hs : content_hash_search c5exB.version.message =
        some (get_content_hash "") := by
      show content_hash_search (message_with_content_hash "" (get_content_hash "")) =
        some (get_content_hash "")
      exact content_hash_search_message_with "" (get_content_hash "")
        (get_content_hash_length "") (get_content_hash_all_hex "")
    rw [hs]
    dsimp only
    rw [if_pos (show get_content_hash "" =
      get_content_hash ({ c5pageB with parent_id := some 5 } : Page).body from rfl)]
  rw [if_neg (by simp [hneeds])]
  dsimp only
  rw [if_pos (by
    refine ⟨?_, ?_⟩
    · decide
    · decide)]
  rfl

/-- Claim C1 (code bug, evaluated at the failing input): when the collection
ends with a single page that has relative links, `collect_pages_to_upload`
clears `relative_links` but leaves the placeholder token in the body, because
the loop body `only_page.body.replace(...)` (line 719) discards the new
string `str.replace` returns — contradicting both the spec ("restore any
placeholders to original link text") and the adjacent comment ("we have to
restore all the links to their original values").  The intended assignment,
modelled by `restore_relative_link_placeholders`, does remove the token. -/
theorem collect_single_page_fixup_keeps_placeholder :
    collect_single_page_fixup none [c1page] = [{ c1page with relative_links := [] }] ∧
      strContains ({ c1page with relative_links := [] } : Page).body
        c1link.replacement = true ∧
      strContains (restore_relative_link_placeholders c1page.body [c1link])
        c1link.replacement = false := by
  refine ⟨?_, by decide, by decide⟩
  decide

/-- Claim C8: a batch containing two pages at distinct positions whose titles
are equal (case-sensitive exact string comparison) is rejected with exit code
1 before any wiki call — no create_page, update_page or add_labels call is
issued — regardless of batch size. -/
theorem two_le_count_of_get_eq {α : Type} [BEq α] [LawfulBEq α] :
    ∀ (l : List α) (i j : Nat) (hij : i < j) (hjl : j < l.length) (v : α),
      l.get ⟨i, by omega⟩ = v → l.get ⟨j, hjl⟩ = v → 2 ≤ l.count v := by
  intro l
  induction l with
  | nil =>
    intro i j hij hjl v hi hj
    simp at hjl
  | cons a l ih =>
    intro i j hij hjl v hi hj
    match j, hjl with
    | Nat.succ j2, hjl =>
      have hjv : l.get ⟨j2, by simpa using hjl⟩ = v := hj
      match i with
      | 0 =>
        have hav : a = v := hi
        rw [List.count_cons]
        have hmem : v ∈ l := by
          rw [← hjv]
          exact List.get_mem _ _ _
        have h1 : 0 < l.count v := List.count_pos_iff.mpr hmem
        simp only [hav, beq_self_eq_true, if_pos]
        omega
      | Nat.succ i2 =>
        have hrec := ih i2 j2 (by omega) (by simpa using hjl) v hi hjv
        rw [List.count_cons]
        omega

theorem main_publish_rejects_duplicate_titles (pages : List Page)
    (attachment_exists : Page → String → Bool)
    (existing_for : Page → Option RemotePage)
    (parent_lookup_for : Page → Option Nat) (message : String)
    (only_changed replace_all_labels minor_edit : Bool)
    (i j : Fin pages.length) (t : String) (hij : i ≠ j)
    (hi : (pages.get i).title = some (.scalar (.strV t)))
    (hj : (pages.get j).title = some (.scalar (.strV t))) :
    main_publish pages attachment_exists existing_for parent_lookup_for message
      only_changed replace_all_labels minor_edit = (some 1, []) := by
  have hlen := List.length_map pages (fun p => p.title)
  have hgeti : (pages.map (fun p => p.title)).get ⟨i.val, by omega⟩ =
      some (.scalar (.strV t)) := by
    rw [List.get_map]
    exact hi
  have hgetj : (pages.map (fun p => p.title)).get ⟨j.val, by omega⟩ =
      some (.scalar (.strV t)) := by
    rw [List.get_map]
    exact hj
  have hcount : 2 ≤ (pages.map (fun p => p.title)).count
      (some (.scalar (.strV t))) := by
    have hne : i.val ≠ j.val := fun hv => hij (Fin.ext hv)
    rcases Nat.lt_or_ge i.val j.val with hlt | hge
    · exact two_le_count_of_get_eq _ i.val j.val hlt (by omega) _ hgeti hgetj
    · have hlt2 : j.val < i.val := by omega
      exact two_le_count_of_get_eq _ j.val i.val hlt2 (by omega) _ hgetj hgeti
  have hcol : page_title_collides pages = true := by
    unfold page_title_collides
    rw [List.any_eq_true]
    refine ⟨some (.scalar (.strV t)), ?_, ?_⟩
    · rw [← hi]
      exact List.mem_map_of_mem (fun p => p.title) (List.get_mem pages i.val i.isLt)
    · rw [decide_eq_true_eq]
      omega
  unfold main_publish
  rw [if_pos hcol]

/-- Witness for C8 on a concrete two-page batch with a duplicated title. -/
theorem main_publish_rejects_duplicate_titles_witness :
    main_publish [c8pageA, c8pageB] (fun _ _ => true) (fun _ => none)
      (fun _ => none) "" false false false = (some 1, []) :=
  main_publish_rejects_duplicate_titles [c8pageA, c8pageB] (fun _ _ => true)
    (fun _ => none) (fun _ => none) "" false false false
    ⟨0, by decide⟩ ⟨1, by decide⟩ "same" (by decide) rfl rfl

theorem renderTokens_title_set (strip_header : Bool) (t0 : String)
    (st : RendererState) (hst : st.title = some t0) (toks : List MdToken) :
    renderTokens strip_header st toks = (joinedMarkup toks, st) := by
  induction toks with
  | nil => rfl
  | cons t ts ih =>
    cases t with
    | heading text level =>
      unfold renderTokens renderToken ConfluenceRenderer.heading
      dsimp only
      rw [if_neg (by simp [hst])]
      dsimp only
      rw [ih]
      rfl
    | other m =>
      unfold renderTokens renderToken
      dsimp only
      rw [ih]
      rfl

theorem splitFirstH1_cons_not_h1 (t : MdToken) (ts : List MdToken)
    (ht : isH1 t = false) :
    splitFirstH1 (t :: ts) =
      (splitFirstH1 ts).map (fun r => (t :: r.1, r.2.1, r.2.2)) := by
  cases t with
  | other m => rfl
  | heading text level =>
    match level, ht with
    | 0, _ => rfl
    | Nat.succ 0, ht => simp [isH1] at ht
    | Nat.succ (Nat.succ n), _ => rfl

theorem renderTokens_split_characterization (strip_header : Bool)
    (toks : List MdToken) :
    renderTokens strip_header {} toks =
      match splitFirstH1 toks with
      | none => (joinedMarkup toks, {})
      | some r =>
        (joinedMarkup r.1 ++ (if strip_header then "" else htmlHeading r.2.1 1) ++
            joinedMarkup r.2.2,
          { title := some r.2.1 }) := by
  induction toks with
  | nil => rfl
  | cons t ts ih =>
    by_cases hh1 : isH1 t = true
    · cases t with
      | other m => simp [isH1] at hh1
      | heading text level =>
        have hl : level = 1 := by
          match level, hh1 with
          | 1, _ => rfl
        subst hl
        show renderTokens strip_header {} (.heading text 1 :: ts) = _
        unfold renderTokens renderToken ConfluenceRenderer.heading
        dsimp only
        rw [if_pos ⟨rfl, rfl⟩]
        cases strip_header with
        | true =>
          rw [if_pos rfl]
          dsimp only
          rw [renderTokens_title_set true text _ rfl ts]
          simp only [splitFirstH1]
          refine Prod.ext ?_ rfl
          show "" ++ joinedMarkup ts = joinedMarkup [] ++ "" ++ joinedMarkup ts
          apply String.ext
          simp [joinedMarkup, String.data_append]
        | false =>
          rw [if_neg (by simp)]
          dsimp only
          rw [renderTokens_title_set false text _ rfl ts]
          simp only [splitFirstH1]
          refine Prod.ext ?_ rfl
          show htmlHeading text 1 ++ joinedMarkup ts =
            joinedMarkup [] ++ htmlHeading text 1 ++ joinedMarkup ts
          apply String.ext
          simp [joinedMarkup, String.data_append]
    · have hne := Bool.of_not_eq_true hh1
      rw [splitFirstH1_cons_not_h1 t ts hne]
      have hout : renderToken strip_header {} t =
          (defaultTokenMarkup t, ({} : RendererState)) := by
        cases t with
        | heading text level =>
          have hl1 : level ≠ 1 := by
            intro hl
            rw [hl] at hne
            simp [isH1] at hne
          unfold renderToken ConfluenceRenderer.heading
          dsimp only
          rw [if_neg (by simp [hl1])]
          rfl
        | other m => rfl
      have hstep : renderTokens strip_header {} (t :: ts) =
          (defaultTokenMarkup t ++ (renderTokens strip_header {} ts).1,
            (renderTokens strip_header {} ts).2) := by
        show (let out := renderToken strip_header {} t
              let rest := renderTokens strip_header out.2 ts
              (out.1 ++ rest.1, rest.2)) = _
        rw [hout]
      rw [hstep, ih]
      cases hsp : splitFirstH1 ts with
      | none =>
        dsimp only [Option.map]
        refine Prod.ext ?_ rfl
        show defaultTokenMarkup t ++ joinedMarkup ts = joinedMarkup (t :: ts)
        rfl
      | some r =>
        dsimp only [Option.map]
        refine Prod.ext ?_ rfl
        show defaultTokenMarkup t ++
            (joinedMarkup r.1 ++ (if strip_header then "" else htmlHeading r.2.1 1) ++
              joinedMarkup r.2.2) = joinedMarkup (t :: r.1) ++ _ ++ joinedMarkup r.2.2
        apply String.ext
        simp [joinedMarkup, String.data_append]

/-- Claim C9: for every rendered token stream, the first level-1 heading (and
only it) sets the recorded title; with `strip_header` that heading produces no
output while the title is still recorded, otherwise it is emitted normally;
every other token — including subsequent level-1 headings, which never change
the title, and headings of level 2 or more, which are never stripped and
never set the title — is emitted with its default markup. -/
theorem renderer_first_h1_title_and_strip_spec (strip_header : Bool)
    (toks : List MdToken) :
    renderTokens strip_header {} toks =
      match splitFirstH1 toks with
      | none => (joinedMarkup toks, {})
      | some r =>
        (joinedMarkup r.1 ++ (if strip_header then "" else htmlHeading r.2.1 1) ++
            joinedMarkup r.2.2,
          { title := some r.2.1 }) :=
  renderTokens_split_characterization strip_header toks

theorem fmScan_no_terminator (rest : List String) (hno : "---\n" ∉ rest) :
    ∀ i, (fmScan rest i).2 = 0 := by
  induction rest with
  | nil =>
    intro i
    rfl
  | cons line rs ih =>
    intro i
    have hline : line ≠ "---\n" := fun he => hno (he ▸ List.mem_cons_self line rs)
    have hrs : "---\n" ∉ rs := fun hm => hno (List.mem_cons_of_mem line hm)
    unfold fmScan
    rw [if_neg hline]
    exact ih hrs (i + 1)

theorem fmScan_terminator (pre post : List String) (hno : "---\n" ∉ pre) :
    ∀ i, (fmScan (pre ++ "---\n" :: post) i).2 = i + pre.length + 2 := by
  induction pre with
  | nil =>
    intro i
    show (fmScan ("---\n" :: post) i).2 = i + 0 + 2
    unfold fmScan
    rw [if_pos rfl]
  | cons line ls ih =>
    intro i
    have hline : line ≠ "---\n" := fun he => hno (he ▸ List.mem_cons_self line ls)
    have hls : "---\n" ∉ ls := fun hm => hno (List.mem_cons_of_mem line hm)
    show (fmScan (line :: (ls ++ "---\n" :: post)) i).2 = i + (ls.length + 1) + 2
    unfold fmScan
    rw [if_neg hline]
    dsimp only
    rw [ih hls (i + 1)]
    omega

theorem dictLookup_dictInsert (d : List (String × YamlVal)) (k : String) (v : YamlVal) :
    dictLookup (dictInsert d k v) k = some v := by
  unfold dictLookup dictInsert
  induction d with
  | nil => simp [List.find?]
  | cons e es ih =>
    by_cases he : (e.1 == k) = true
    · rw [List.filter_cons, if_neg (by simp [he])]
      exact ih
    · have he2 : (e.1 == k) = false := Bool.of_not_eq_true he
      rw [List.filter_cons, if_pos (by simp [he2]), List.cons_append]
      rw [List.find?_cons_of_neg _ (by simp [he2])]
      exact ih

theorem dictLookup_dictInsert_other (d : List (String × YamlVal)) (k k2 : String)
    (v : YamlVal) (hne : (k == k2) = false) :
    dictLookup (dictInsert d k v) k2 = dictLookup d k2 := by
  unfold dictLookup dictInsert
  induction d with
  | nil =>
    simp only [List.filter_nil, List.nil_append]
    rw [List.find?_cons_of_neg _ (by simp only [] ; simp [hne]), List.find?_nil]
  | cons e es ih =>
    by_cases he : (e.1 == k) = true
    · rw [List.filter_cons, if_neg (by simp [he])]
      have hek : e.1 = k := eq_of_beq he
      have h2 : (e.1 == k2) = false := by
        rw [hek]
        exact hne
      rw [List.find?_cons_of_neg _ (by simp [h2])]
      exact ih
    · have he2 : (e.1 == k) = false := Bool.of_not_eq_true he
      rw [List.filter_cons, if_pos (by simp [he2]), List.cons_append]
      by_cases h2 : (e.1 == k2) = true
      · simp only [List.find?, h2]
      · have h22 : (e.1 == k2) = false := Bool.of_not_eq_true h2
        simp only [List.find?, h22]
        exact ih

/-- Claim C7 (amended): `get_document_frontmatter` returns an empty mapping —
and the caller leaves the line sequence unsliced — without raising, whenever
the first line is not exactly `---`, or no terminating `---` line is found, or
the enclosed text fails to parse with a YAML *parser* error (the only
exception class document.py catches; other YAML loading failures, e.g. scanner
errors from tab-indented text, propagate as exceptions).  On a successful
parse of a mapping it returns the mapping plus, under the
`frontmatter_end_line` key, the index of the line immediately following the
closing delimiter, and the caller slices the lines from that index. -/
theorem get_document_frontmatter_spec :
    (∀ (load_yaml : String → YamlLoadResult) (lines : List String),
      lines.head? ≠ some "---\n" →
      get_document_frontmatter load_yaml lines = .ok [] ∧
        sliced_markdown_lines load_yaml lines = .ok lines) ∧
    (∀ (load_yaml : String → YamlLoadResult) (rest : List String),
      "---\n" ∉ rest →
      get_document_frontmatter load_yaml ("---\n" :: rest) = .ok [] ∧
        sliced_markdown_lines load_yaml ("---\n" :: rest) = .ok ("---\n" :: rest)) ∧
    (∀ (load_yaml : String → YamlLoadResult) (rest : List String),
      load_yaml (fmScan rest 0).1 = .parserError →
      get_document_frontmatter load_yaml ("---\n" :: rest) = .ok [] ∧
        sliced_markdown_lines load_yaml ("---\n" :: rest) = .ok ("---\n" :: rest)) ∧
    (∀ (load_yaml : String → YamlLoadResult) (pre post : List String)
      (entries : List (String × YamlVal)),
      "---\n" ∉ pre →
      (fmScan (pre ++ "---\n" :: post) 0).1 ≠ "" →
      load_yaml (fmScan (pre ++ "---\n" :: post) 0).1 = .okMapping entries →
      get_document_frontmatter load_yaml ("---\n" :: (pre ++ "---\n" :: post)) =
          .ok (dictInsert entries "frontmatter_end_line"
            (.scalar (.intV ((pre.length + 2 : Nat) : Int)))) ∧
        sliced_markdown_lines load_yaml ("---\n" :: (pre ++ "---\n" :: post)) =
          .ok (("---\n" :: (pre ++ "---\n" :: post)).drop (pre.length + 2))) := by
  have hnohead : ∀ (load_yaml : String → YamlLoadResult) (lines : List String),
      lines.head? ≠ some "---\n" →
      get_document_frontmatter load_yaml lines = .ok [] := by
    intro load_yaml lines hh
    unfold get_document_frontmatter
    cases lines with
    | nil => rfl
    | cons first rest =>
      have hfirst : first ≠ "---\n" := by
        intro he
        exact hh (by rw [he]; rfl)
      dsimp only
      rw [if_neg hfirst]
      dsimp only
      rw [if_neg (by simp)]
      rfl
  have hsliced : ∀ (load_yaml : String → YamlLoadResult) (lines : List String),
      get_document_frontmatter load_yaml lines = .ok [] →
      sliced_markdown_lines load_yaml lines = .ok lines := by
    intro load_yaml lines hfm
    unfold sliced_markdown_lines
    rw [hfm]
    rfl
  refine ⟨?_, ?_, ?_, ?_⟩
  · intro load_yaml lines hh
    exact ⟨hnohead load_yaml lines hh, hsliced _ _ (hnohead load_yaml lines hh)⟩
  · intro load_yaml rest hno
    have hfm : get_document_frontmatter load_yaml ("---\n" :: rest) = .ok [] := by
      unfold get_document_frontmatter
      dsimp only
      rw [if_pos rfl]
      have hend := fmScan_no_terminator rest hno 0
      rcases hscan : fmScan rest 0 with ⟨y, e⟩
      rw [hscan] at hend
      dsimp only at hend
      subst hend
      dsimp only
      rw [if_neg (by simp)]
      rfl
    exact ⟨hfm, hsliced _ _ hfm⟩
  · intro load_yaml rest hpe
    have hfm : get_document_frontmatter load_yaml ("---\n" :: rest) = .ok [] := by
      unfold get_document_frontmatter
      dsimp only
      rw [if_pos rfl]
      rcases hscan : fmScan rest 0 with ⟨y, e⟩
      rw [hscan] at hpe
      dsimp only at hpe
      dsimp only
      by_cases hcond : y ≠ "" ∧ e ≠ 0
      · rw [if_pos hcond, hpe]
        rfl
      · rw [if_neg hcond]
        rfl
    exact ⟨hfm, hsliced _ _ hfm⟩
  · intro load_yaml pre post entries hno hyne hok
    have hend := fmScan_terminator pre post hno 0
    have hfm : get_document_frontmatter load_yaml
        ("---\n" :: (pre ++ "---\n" :: post)) =
        .ok (dictInsert entries "frontmatter_end_line"
          (.scalar (.intV ((pre.length + 2 : Nat) : Int)))) := by
      unfold get_document_frontmatter
      dsimp only
      rw [if_pos rfl]
      rcases hscan : fmScan (pre ++ "---\n" :: post) 0 with ⟨y, e⟩
      rw [hscan] at hok hyne hend
      dsimp only at hok hyne hend
      have he : e = pre.length + 2 := by omega
      subst he
      dsimp only
      rw [if_pos ⟨hyne, by omega⟩, hok]
      rfl
    refine ⟨hfm, ?_⟩
    unfold sliced_markdown_lines
    rw [hfm]
    dsimp only [Except.map]
    rw [dictLookup_dictInsert]
    dsimp only
    rw [show ((((pre.length + 2 : Nat) : Int)).toNat) = pre.length + 2 from by omega]

/-- Witness for C7, applied at a concrete frontmatter block: the mapping is
returned with end line 3 and the lines are sliced from index 3. -/
theorem get_document_frontmatter_spec_witness :
    get_document_frontmatter c7yamlOk
        ("---\n" :: (["title: X\n"] ++ "---\n" :: ["body\n"])) =
      .ok (dictInsert [("title", .scalar (.strV "X"))] "frontmatter_end_line"
        (.scalar (.intV (["title: X\n"].length + 2)))) ∧
    sliced_markdown_lines c7yamlOk
        ("---\n" :: (["title: X\n"] ++ "---\n" :: ["body\n"])) =
      .ok (("---\n" :: (["title: X\n"] ++ "---\n" :: ["body\n"])).drop
        (["title: X\n"].length + 2)) :=
  get_document_frontmatter_spec.2.2.2 c7yamlOk ["title: X\n"] ["body\n"]
    [("title", .scalar (.strV "X"))] (by decide) (by decide) (by decide)

/-- Counterexample to C7 as stated: frontmatter whose enclosed text fails to
parse as YAML with a scanner error (tab-indented input) makes
`get_document_frontmatter` raise — document.py line 314 catches only
`ParserError` — instead of returning an empty mapping. -/
theorem get_document_frontmatter_scanner_error_cex :
    get_document_frontmatter c7yamlTab ["---\n", "\t- a\n", "---\n"] =
      .error DocError.yamlError := by
  rfl

/-- Claim C10: a line sequence opening with an empty frontmatter block (two
consecutive `---` lines) yields an empty mapping without a
`frontmatter_end_line` entry, the caller does not slice the lines, and both
delimiter lines remain part of the body handed to the renderer. -/
theorem empty_frontmatter_block_untouched (load_yaml : String → YamlLoadResult)
    (tokenize : String → List MdToken) (strip_header : Bool) (rest : List String) :
    get_document_frontmatter load_yaml ("---\n" :: "---\n" :: rest) = .ok [] ∧
      sliced_markdown_lines load_yaml ("---\n" :: "---\n" :: rest) =
        .ok ("---\n" :: "---\n" :: rest) ∧
      get_page_data_from_lines tokenize load_yaml strip_header
          ("---\n" :: "---\n" :: rest) =
        .ok (parse_page tokenize strip_header ("---\n" :: "---\n" :: rest)) := by
  have hfm : get_document_frontmatter load_yaml ("---\n" :: "---\n" :: rest) =
      .ok [] := by
    unfold get_document_frontmatter
    dsimp only
    rw [if_pos rfl]
    have hscan : fmScan ("---\n" :: rest) 0 = ("", 2) := by
      unfold fmScan
      rw [if_pos rfl]
    rw [hscan]
    dsimp only
    rw [if_neg (by simp)]
    rfl
  refine ⟨hfm, ?_, ?_⟩
  · unfold sliced_markdown_lines
    rw [hfm]
    rfl
  · unfold get_page_data_from_lines
    rw [hfm]
    rfl

theorem firstH1_eq_splitFirstH1 (toks : List MdToken) :
    firstH1 toks = (splitFirstH1 toks).map (fun r => r.2.1) := by
  induction toks with
  | nil => rfl
  | cons t ts ih =>
    by_cases hh1 : isH1 t = true
    · cases t with
      | other m => simp [isH1] at hh1
      | heading text level =>
        have hl : level = 1 := by
          match level, hh1 with
          | 1, _ => rfl
        subst hl
        rfl
    · have hne := Bool.of_not_eq_true hh1
      rw [splitFirstH1_cons_not_h1 t ts hne]
      have hfh : firstH1 (t :: ts) = firstH1 ts := by
        cases t with
        | other m => rfl
        | heading text level =>
          match level, hne with
          | 0, _ => rfl
          | Nat.succ 0, hne2 => simp [isH1] at hne2
          | Nat.succ (Nat.succ n), _ => rfl
      rw [hfh, ih]
      cases splitFirstH1 ts <;> rfl

theorem parse_page_title (tokenize : String → List MdToken) (strip_header : Bool)
    (markdown_lines : List String) :
    (parse_page tokenize strip_header markdown_lines).title =
      (firstH1 (tokenize (String.join markdown_lines))).map
        (fun t => YamlVal.scalar (.strV t)) := by
  unfold parse_page
  dsimp only
  rw [renderTokens_split_characterization]
  rw [firstH1_eq_splitFirstH1]
  cases splitFirstH1 (tokenize (String.join markdown_lines)) <;> rfl

/-- Claim C4 (amended): for a document assembled from a file, the resulting
title follows this order: a frontmatter `title` whose value is truthy (in the
Python sense) wins; a frontmatter `title` with a falsy value (empty string,
null, ...) forces the filename stem, bypassing any heading; with no
frontmatter `title`, the first level-1 heading's text wins when non-empty;
otherwise the title is the filename stem. -/
theorem page_title_order_spec
    (tokenize : String → List MdToken) (load_yaml : String → YamlLoadResult)
    (strip_header : Bool) (markdown_lines : List String) (file_path stem : String)
    (entries : List (String × YamlVal)) (body_lines : List String) (page : Page)
    (hfm : get_document_frontmatter load_yaml markdown_lines = .ok entries)
    (hbl : sliced_markdown_lines load_yaml markdown_lines = .ok body_lines)
    (hres : get_page_data_from_file_path tokenize load_yaml strip_header
      markdown_lines file_path stem = .ok page) :
    (∀ tv, dictLookup entries "title" = some tv → tv.truthy = true →
      page.title = some tv) ∧
    (∀ tv, dictLookup entries "title" = some tv → tv.truthy = false →
      page.title = some (.scalar (.strV stem))) ∧
    (dictLookup entries "title" = none →
      ∀ h1, firstH1 (tokenize (String.join body_lines)) = some h1 → h1 ≠ "" →
        page.title = some (.scalar (.strV h1))) ∧
    (dictLookup entries "title" = none →
      (firstH1 (tokenize (String.join body_lines)) = none ∨
        firstH1 (tokenize (String.join body_lines)) = some "") →
      page.title = some (.scalar (.strV stem))) := by
  unfold get_page_data_from_file_path at hres
  unfold get_page_data_from_lines at hres
  rw [hfm] at hres
  unfold sliced_markdown_lines at hbl
  rw [hfm] at hbl
  dsimp only [Except.map] at hbl
  have hbl2 : (match dictLookup entries "frontmatter_end_line" with
      | some (.scalar (.intV e)) => markdown_lines.drop e.toNat
      | _ => markdown_lines) = body_lines := Except.ok.inj hbl
  dsimp only at hres
  rw [hbl2] at hres
  have htitle : page.title =
      (let t0 := match dictLookup entries "title" with
        | some tv => some tv
        | none => (parse_page tokenize strip_header body_lines).title
      if titleTruthy t0 then t0 else some (.scalar (.strV stem))) := by
    rcases hlab : dictLookup entries "labels" with _ | lv
    · rw [hlab] at hres
      dsimp only [Except.map] at hres
      have hpage := Except.ok.inj hres
      rw [← hpage]
      dsimp only
      rcases htit : dictLookup entries "title" with _ | tv
      · dsimp only
        by_cases ht : titleTruthy (parse_page tokenize strip_header body_lines).title
        · rw [if_neg (by simp [ht]), if_pos ht]
        · rw [if_pos (by simp [ht]), if_neg ht]
      · dsimp only
        by_cases ht : titleTruthy (some tv)
        · rw [if_neg (by simp [ht]), if_pos ht]
        · rw [if_pos (by simp [ht]), if_neg ht]
    · rw [hlab] at hres
      cases lv with
      | scalar sv =>
        dsimp only [Except.map] at hres
        exact absurd hres (by simp)
      | listV items =>
        dsimp only [Except.map] at hres
        have hpage := Except.ok.inj hres
        rw [← hpage]
        dsimp only
        rcases htit : dictLookup entries "title" with _ | tv
        · dsimp only
          by_cases ht : titleTruthy (parse_page tokenize strip_header body_lines).title
          · rw [if_neg (by simp [ht]), if_pos ht]
          · rw [if_pos (by simp [ht]), if_neg ht]
        · dsimp only
          by_cases ht : titleTruthy (some tv)
          · rw [if_neg (by simp [ht]), if_pos ht]
          · rw [if_pos (by simp [ht]), if_neg ht]
  refine ⟨?_, ?_, ?_, ?_⟩
  · intro tv hl htr
    rw [htitle]
    dsimp only
    rw [hl]
    dsimp only
    rw [if_pos (show titleTruthy (some tv) = true from htr)]
  · intro tv hl htr
    rw [htitle]
    dsimp only
    rw [hl]
    dsimp only
    rw [if_neg (by simp [titleTruthy, htr])]
  · intro hl h1 hh1 hne
    rw [htitle]
    dsimp only
    rw [hl]
    dsimp only
    rw [parse_page_title, hh1]
    dsimp only [Option.map]
    rw [if_pos (by simp [titleTruthy, YamlVal.truthy, hne])]
  · intro hl hcase
    rw [htitle]
    dsimp only
    rw [hl]
    dsimp only
    rw [parse_page_title]
    rcases hcase with hc | hc
    · rw [hc]
      dsimp only [Option.map]
      rw [if_neg (by simp [titleTruthy])]
    · rw [hc]
      dsimp only [Option.map]
      rw [if_neg (by simp [titleTruthy, YamlVal.truthy])]

/-- Witness for C4: with frontmatter `title: X` and a level-1 heading `Y`, the
assembled page's title is `X`. -/
theorem page_title_order_spec_witness :
    dictLookup c4entriesW "title" = some (.scalar (.strV "X")) ∧
      (YamlVal.scalar (.strV "X")).truthy = true ∧
      c4pageW.title = some (.scalar (.strV "X")) :=
  ⟨rfl, rfl,
    (page_title_order_spec c4tokenize c7yamlOk false c4linesW "doc.md" "doc"
        c4entriesW ["# Y\n"] c4pageW rfl rfl rfl).1
      (.scalar (.strV "X")) rfl rfl⟩

/-- Counterexample to C4 as stated: with the frontmatter mapping containing
the key `title` holding the empty string and a level-1 heading
`Y`, the resulting title is the filename stem `doc` — not the frontmatter
value — because document.py only keeps a truthy title
(`if not page.title: page.title = file_path.stem`). -/
theorem page_title_empty_frontmatter_cex :
    (get_page_data_from_file_path c4tokenize c4yamlEmpty false
          ["---\n", "title: ''\n", "---\n", "# Y\n"] "doc.md" "doc").map
        (fun p => p.title) =
      .ok (some (.scalar (.strV "doc"))) ∧
      some (YamlVal.scalar (.strV "doc")) ≠ some (YamlVal.scalar (.strV "")) := by
  constructor
  · rfl
  · simp

/-- Claim C6 (amended): for every image source URL, when the parsed URL has no
network authority component the renderer emits an attachment reference whose
`ri:filename` attribute is the basename of the source path — NOT URL-decoded —
and appends the source path to the attachments list; otherwise it emits a
`ri:url` reference carrying the full URL and appends nothing. -/
theorem image_classification_spec (st : RendererState) (src : String)
    (title : Option String) (text : String) :
    (urlparse_netloc src = "" →
      ConfluenceRenderer.image st src title text =
        ("<ac:image" ++ image_attrs_markup title text ++ ">" ++
            "<ri:attachment ri:filename=\"" ++ path_name src ++
            "\"></ri:attachment>\n" ++ "</ac:image>\n",
          { st with attachments := st.attachments ++ [src] })) ∧
    (urlparse_netloc src ≠ "" →
      ConfluenceRenderer.image st src title text =
        ("<ac:image" ++ image_attrs_markup title text ++ ">" ++
            "<ri:url ri:value=\"" ++ src ++ "\"></ri:url>\n" ++ "</ac:image>\n",
          st)) := by
  have hgo : ∀ a s : String, String.intercalate.go a s [] = a := fun a s => rfl
  have hgo2 : ∀ a s b : String, String.intercalate.go a s [b] = a ++ s ++ b :=
    fun a s b => rfl
  constructor
  · intro hnet
    unfold ConfluenceRenderer.image
    dsimp only
    rw [if_pos hnet]
    refine Prod.ext ?_ rfl
    rcases title with _ | tv
    · apply String.ext
      simp [ConfluenceTag.render, ConfluenceTag.renderChildren, sortPairs,
        insertPairSorted, image_attrs_markup, String.intercalate, hgo,
        String.data_append]
    · by_cases htv : tv ≠ ""
      · have hp : pairLe ("ac:alt", text) ("ac:title", tv) = true := by
          unfold pairLe
          rw [show charListLt "ac:alt".data "ac:title".data = true from by decide]
          rw [Bool.true_or]
        apply String.ext
        simp [ConfluenceTag.render, ConfluenceTag.renderChildren, sortPairs,
          insertPairSorted, image_attrs_markup, String.intercalate, hgo, hgo2, hp, htv,
          String.data_append]
      · have htv2 : tv = "" := by
          by_contra hc
          exact htv hc
        subst htv2
        apply String.ext
        simp [ConfluenceTag.render, ConfluenceTag.renderChildren, sortPairs,
          insertPairSorted, image_attrs_markup, String.intercalate, hgo,
          String.data_append]
  · intro hnet
    unfold ConfluenceRenderer.image
    dsimp only
    rw [if_neg hnet]
    refine Prod.ext ?_ rfl
    rcases title with _ | tv
    · apply String.ext
      simp [ConfluenceTag.render, ConfluenceTag.renderChildren, sortPairs,
        insertPairSorted, image_attrs_markup, String.intercalate, hgo,
        String.data_append]
    · by_cases htv : tv ≠ ""
      · have hp : pairLe ("ac:alt", text) ("ac:title", tv) = true := by
          unfold pairLe
          rw [show charListLt "ac:alt".data "ac:title".data = true from by decide]
          rw [Bool.true_or]
        apply String.ext
        simp [ConfluenceTag.render, ConfluenceTag.renderChildren, sortPairs,
          insertPairSorted, image_attrs_markup, String.intercalate, hgo, hgo2, hp, htv,
          String.data_append]
      · have htv2 : tv = "" := by
          by_contra hc
          exact htv hc
        subst htv2
        apply String.ext
        simp [ConfluenceTag.render, ConfluenceTag.renderChildren, sortPairs,
          insertPairSorted, image_attrs_markup, String.intercalate, hgo,
          String.data_append]

/-- Witness for C6 at a concrete local image path. -/
theorem image_classification_spec_witness :
    urlparse_netloc "images/pic.png" = "" ∧
      ConfluenceRenderer.image {} "images/pic.png" none "alt" =
        ("<ac:image" ++ image_attrs_markup none "alt" ++ ">" ++
            "<ri:attachment ri:filename=\"" ++ path_name "images/pic.png" ++
            "\"></ri:attachment>\n" ++ "</ac:image>\n",
          ({ attachments := ["images/pic.png"] } : RendererState)) :=
  ⟨by decide,
    (image_classification_spec {} "images/pic.png" none "alt").1 (by decide)⟩

set_option maxRecDepth 4000 in
/-- Counterexample to C6 as stated: for the local image source
`images/a%20b.png` the emitted filename attribute is `a%20b.png`, the raw
basename — the code uses `Path(src).name` with no URL-decoding — whereas the
claim's URL-decoded basename would be `a b.png`, which does not occur in the
markup. -/
theorem image_not_urldecoded_cex :
    (ConfluenceRenderer.image {} "images/a%20b.png" none "alt").2.attachments =
        ["images/a%20b.png"] ∧
      path_name "images/a%20b.png" = "a%20b.png" ∧
      percent_unquote (path_name "images/a%20b.png") = "a b.png" ∧
      strContains (ConfluenceRenderer.image {} "images/a%20b.png" none "alt").1
        "ri:filename=\"a%20b.png\"" = true ∧
      strContains (ConfluenceRenderer.image {} "images/a%20b.png" none "alt").1
        "a b.png" = false := by
  refine ⟨by decide, by decide, by decide, by decide, by decide⟩

end Md2cf
